import Mathlib

/-!
Shallow embedding of `src/project1.py` (PDF Merger): the page-range parser
`PdfMergerApp.apply_page_removal` (lines 164-181), the sequential merge
procedure `MergeWorker.run` (lines 28-51), and the launch path
`PdfMergerApp.merge_pdfs` (lines 225-239).

Modelling conventions:
* Python strings are `List Char` (ASCII; CPython's `int(str)` additionally
  accepts non-ASCII digits and whitespace, which nothing here exercises).
* Python `set[int]` is `Finset ℤ`.
* The opaque PDF library is a parameter: `PdfReader` is a function
  `read : String → Except String (List Page)` (an `Except.error` models the
  constructor raising, with `str(e)` as payload), and the pages written by
  `PdfWriter` are returned in the `output` field of `RunResult`
  (`none` models "no file was created at the destination path").
* Python float arithmetic in `int(((i + 1) / total_files) * 100)` is
  modelled bit-faithfully as IEEE-754 binary64: `pyPercent` performs the
  correctly rounded (nearest, ties to even) division `k / n`, the correctly
  rounded multiplication by `100`, and `int` truncation, all in exact
  integer arithmetic on 53-bit mantissa/exponent pairs.  This differs from
  exact rational arithmetic at ordinary inputs: `int((29 / 50) * 100)` is
  `57`, not `⌊2900 / 50⌋ = 58`.  Overflow and subnormals are out of range
  for `1 ≤ k`, `1 ≤ n` with `k ≤ n` (the only values the loop produces)
  and are not modelled.  Division by zero raises `ZeroDivisionError`,
  which the bare `except` turns into an `error` signal.
-/

namespace Project1

/-- ASCII whitespace stripped by CPython's `int(str)` conversion (space,
tab, newline, carriage return, vertical tab, form feed, and the
separator control characters `\x1c`-`\x1f`). -/
def isPyWhitespace (c : Char) : Bool :=
  c = ' ' || c = '\t' || c = '\n' || c = '\r' || c = '\x0b' || c = '\x0c'
    || c = '\x1c' || c = '\x1d' || c = '\x1e' || c = '\x1f'

/-- Numeric value of an ASCII digit character. -/
def digitVal (c : Char) : Nat := c.toNat - 48

/-- Digit run with CPython underscore rules (`int("1_000")` is legal):
underscores must be single and sit between two digits. -/
def pyDigitsAux : List Char → Nat → Option Nat
  | [], acc => some acc
  | c :: cs, acc =>
    if c.isDigit then pyDigitsAux cs (acc * 10 + digitVal c)
    else if c = '_' then
      match cs with
      | c2 :: cs' =>
        if c2.isDigit then pyDigitsAux cs' (acc * 10 + digitVal c2) else none
      | [] => none
    else none

/-- A nonempty digit run (with underscore rules) and its value. -/
def pyDigits : List Char → Option Nat
  | [] => none
  | c :: cs => if c.isDigit then pyDigitsAux cs (digitVal c) else none

/-- Strip leading and trailing ASCII whitespace, as `int(str)` does. -/
def stripWS (cs : List Char) : List Char :=
  ((cs.dropWhile isPyWhitespace).reverse.dropWhile isPyWhitespace).reverse

/-- CPython `int(s)`; `none` models `ValueError`. -/
def pyInt (cs : List Char) : Option Int :=
  match stripWS cs with
  | '+' :: rest => (pyDigits rest).map (fun n => (n : Int))
  | '-' :: rest => (pyDigits rest).map (fun n => -(n : Int))
  | rest => (pyDigits rest).map (fun n => (n : Int))

/-- Python `str.split(sep)` for a one-character separator: `"".split(sep)`
is `[""]`, and consecutive separators yield empty pieces. -/
def pySplit (sep : Char) : List Char → List (List Char)
  | [] => [[]]
  | c :: cs =>
    match pySplit sep cs with
    | [] => [[]]
    | piece :: pieces =>
      if c = sep then [] :: piece :: pieces else (c :: piece) :: pieces

/-- Python `a, b = map(int, pieces)`: succeeds only for exactly two pieces
that both parse as integers; anything else raises `ValueError`. -/
def pyIntPair : List (List Char) → Option (Int × Int)
  | [x, y] =>
    match pyInt x, pyInt y with
    | some a, some b => some (a, b)
    | _, _ => none
  | _ => none

/-- The `for part in text.split(","):` loop of `apply_page_removal`
(src/project1.py lines 173-178).  The accumulator is the live
`self.excluded_pages` set; the `Bool` reports whether the `except` branch
ran (the "Invalid page range format" dialog).  When a token raises, the set
keeps the updates already applied, because the code mutates it in place. -/
def applyTokens : List (List Char) → Finset ℤ → Finset ℤ × Bool
  | [], acc => (acc, false)
  | part :: rest, acc =>
    if '-' ∈ part then
      match pyIntPair (pySplit '-' part) with
      | some ab => applyTokens rest (acc ∪ Finset.Icc ab.1 ab.2)
      | none => (acc, true)
    else
      match pyInt part with
      | some n => applyTokens rest (insert n acc)
      | none => (acc, true)

/-- The state of `PdfMergerApp` that the claims are about: the rows of
`list_widget` (modelled as the file paths they carry) and
`self.excluded_pages`. -/
structure PdfMergerApp where
  items : List String
  excluded_pages : Finset ℤ
deriving DecidableEq

/-- `PdfMergerApp.apply_page_removal` (src/project1.py lines 164-181), with
the text of `page_input` passed as `input`.  Returns the updated application
state and whether the error dialog was shown.  The method begins with
`self.excluded_pages.clear()`, before any validation, and
`text = self.page_input.text().replace(" ", "")` removes every space
character (and only spaces). -/
def PdfMergerApp.apply_page_removal (app : PdfMergerApp) (input : List Char) :
    PdfMergerApp × Bool :=
  let text := input.filter (fun c => c ≠ ' ')
  if text = [] then ({ app with excluded_pages := ∅ }, false)
  else
    let r := applyTokens (pySplit ',' text) ∅
    ({ app with excluded_pages := r.1 }, r.2)

/-- Specification-side meaning of one comma-separated token: a range token
`a-b` denotes the integers in `[a, b]` inclusive, a bare token denotes a
singleton; `none` is `ParseError: InvalidFormat`. -/
def tokenExpansion (part : List Char) : Option (Finset ℤ) :=
  if '-' ∈ part then
    (pyIntPair (pySplit '-' part)).map (fun ab => Finset.Icc ab.1 ab.2)
  else (pyInt part).map (fun n => {n})

/-- Specification-side union of all token expansions. -/
def specUnion (tokens : List (List Char)) : Finset ℤ :=
  tokens.foldr (fun t s => (tokenExpansion t).getD ∅ ∪ s) ∅

/-- The Qt signals `MergeWorker` emits (src/project1.py lines 18-20),
in emission order. -/
inductive Event where
  | progress (percent : Nat) (status : String)
  | finished
  | error (msg : String)
deriving DecidableEq

/-- The f-string `"Merging file {i + 1} of {total_files}"` with `k = i + 1`
and `n = total_files`. -/
def statusMsg (k n : Nat) : String :=
  "Merging file " ++ toString k ++ " of " ++ toString n

/-- Observable outcome of `MergeWorker.run`: which paths `PdfReader` was
asked to open, the emitted signal trace, and the page sequence written to
the output path (`none` when no output file was created there). -/
structure RunResult (Page : Type) where
  opened : List String
  events : List Event
  output : Option (List Page)
deriving DecidableEq

variable {Page : Type}

/-- The inner loop `for page in reader.pages:` (src/project1.py lines
37-40): the state is the pair (pages added to `writer` so far,
`current_page`); a page is appended exactly when `current_page` is not in
`excluded_pages`, and the counter is incremented after every page. -/
def addPages (excluded : Finset ℤ) (doc : List Page) (st : List Page × Nat) :
    List Page × Nat :=
  doc.foldl
    (fun st page =>
      (if (st.2 : ℤ) ∈ excluded then st.1 else st.1 ++ [page], st.2 + 1))
    st

/-- Round `N / D` to the nearest integer, ties to even (the IEEE-754
rounding of an exact nonnegative quotient whose fractional bits are
`(N mod D) / D`). -/
def rne (N D : Nat) : Nat :=
  let q := N / D
  let r := N % D
  if 2 * r < D then q
  else if D < 2 * r then q + 1
  else if q % 2 = 0 then q else q + 1

/-- Double the numerator (decreasing the binary exponent `-s` by one) until
the integer quotient `N / D` reaches the 53-bit mantissa range
`[2^52, 2^53)`.  The fuel `n + 64` suffices for any denominator `D = n ≥ 1`
and numerator `≥ 2^52 / n`. -/
def normScaleUp : Nat → Nat → Nat → Nat → Nat × Nat
  | 0, N, _D, s => (N, s)
  | fuel + 1, N, D, s =>
    if N / D < 2 ^ 52 then normScaleUp fuel (2 * N) D (s + 1) else (N, s)

/-- Double the denominator (increasing the binary exponent `-s` by one)
while the integer quotient is at least `2^53`; only reachable when the
quotient exceeds 1, i.e. never for the `k ≤ n` divisions the merge loop
performs (the exponent is clamped at `s = 0`, far outside that range). -/
def normScaleDown : Nat → Nat → Nat → Nat → Nat × Nat
  | 0, _N, D, s => (D, s)
  | fuel + 1, N, D, s =>
    if 2 ^ 53 ≤ N / D then
      if s = 0 then (D, s) else normScaleDown fuel N (2 * D) (s - 1)
    else (D, s)

/-- The IEEE-754 binary64 value of Python's `k / n` (true division,
correctly rounded to nearest, ties to even), returned as a
mantissa/negative-exponent pair `(m, s)` with value `m * 2^(-s)` and
`2^52 ≤ m ≤ 2^53`: the exact quotient is scaled into the 53-bit window by
long division and the trailing remainder is rounded half-to-even. -/
def floatDiv (k n : Nat) : Nat × Nat :=
  let u := normScaleUp (n + 64) (k * 2 ^ 52) n 52
  let d := normScaleDown (k + 1) u.1 n u.2
  (rne u.1 d.1, d.2)

/-- Python's `int(x * 100)` for a nonnegative binary64 `x = m * 2^(-s)`
with `2^52 ≤ m ≤ 2^53`: the exact product `m * 100` (59 or 60 bits) is
rounded back to a 53-bit mantissa — nearest, ties to even, dropping `t = 6`
or `7` low bits — and the resulting value is truncated to an integer. -/
def floatMul100Trunc (m s : Nat) : Nat :=
  let mp := m * 100
  let t := if mp < 2 ^ 59 then 6 else 7
  let m2 := rne mp (2 ^ t)
  if t ≤ s then m2 / 2 ^ (s - t) else m2 * 2 ^ (t - s)

/-- The percent computation `int(((i + 1) / total_files) * 100)` of
src/project1.py line 42 with `k = i + 1` and `n = total_files`, under
IEEE-754 binary64 semantics for both float operations.  For example
`pyPercent 2 3 = 66` and `pyPercent 29 50 = 57` (where exact arithmetic
would give `⌊2900 / 50⌋ = 58`), matching CPython. -/
def pyPercent (k n : Nat) : Nat :=
  floatMul100Trunc (floatDiv k n).1 (floatDiv k n).2

/-- The outer loop `for i, pdf in enumerate(self.files):` of
`MergeWorker.run` (src/project1.py lines 34-48) inside the enclosing
`try` / `except`: a raised exception aborts everything and emits
`error(str(e))`.  The accumulators are the enumeration index `i`, the
writer/counter state `st`, the paths handed to `PdfReader` so far, and the
signals emitted so far. -/
def runAux (read : String → Except String (List Page)) (excluded : Finset ℤ)
    (total_files : Nat) :
    List String → Nat → List Page × Nat → List String → List Event →
      RunResult Page
  | [], _i, st, opened, events =>
    -- `with open(self.output, "wb") as f: writer.write(f)`, then
    -- `self.finished.emit()`
    ⟨opened, events ++ [Event.finished], some st.1⟩
  | pdf :: rest, i, st, opened, events =>
    match read pdf with
    | Except.error msg =>
      -- `PdfReader(pdf)` raised; the bare `except` emits `error(str(e))`
      -- and no output file is ever opened for writing
      ⟨opened ++ [pdf], events ++ [Event.error msg], none⟩
    | Except.ok pages =>
      -- the page loop runs first, then the percent computation
      if total_files = 0 then
        -- `(i + 1) / total_files` would raise `ZeroDivisionError`
        -- (unreachable: the loop body runs only when the list is nonempty)
        ⟨opened ++ [pdf], events ++ [Event.error "division by zero"], none⟩
      else
        runAux read excluded total_files rest (i + 1)
          (addPages excluded pages st)
          (opened ++ [pdf])
          (events ++
            [Event.progress (pyPercent (i + 1) total_files)
              (statusMsg (i + 1) total_files)])

/-- `MergeWorker.run` (src/project1.py lines 28-51): `writer = PdfWriter()`
starts empty, `current_page = 1`, `total_files = len(self.files)`. -/
def MergeWorker.run (read : String → Except String (List Page))
    (files : List String) (excluded_pages : Finset ℤ) : RunResult Page :=
  runAux read excluded_pages files.length files 0 ([], 1) [] []

/-- What `MergeWorker.__init__` (src/project1.py lines 22-26) stores by
value: `files` (the fresh list built by `get_files`) and `output`.
`self.excluded_pages` is stored as a reference to the application's live
set, so it is not a field here; `MergeWorker.runIn` reads it from the
application state current when `run` executes. -/
structure MergeWorker where
  files : List String
  output : String
deriving DecidableEq

/-- `PdfMergerApp.get_files` (src/project1.py lines 145-149): a list
comprehension, so every call builds a new list from the widget rows. -/
def PdfMergerApp.get_files (app : PdfMergerApp) : List String :=
  app.items

/-- The worker construction in `PdfMergerApp.merge_pdfs` (src/project1.py
lines 233-239): `MergeWorker(self.get_files(), output, self.excluded_pages)`.
The file list is a snapshot (fresh list); the exclusion set argument is the
object reference `self.excluded_pages` itself. -/
def PdfMergerApp.merge_pdfs (app : PdfMergerApp) (output : String) :
    MergeWorker :=
  ⟨app.get_files, output⟩

/-- Running the worker: because `self.excluded_pages` was captured by
reference, `run` reads whatever that set holds in the application state
`appAtRun` current when the worker thread executes. -/
def MergeWorker.runIn (w : MergeWorker)
    (read : String → Except String (List Page)) (appAtRun : PdfMergerApp) :
    RunResult Page :=
  MergeWorker.run read w.files appAtRun.excluded_pages

/-- The progress event the worker emits after finishing the `k`-th source
file (1-based) out of `n`. -/
def progressEvt (n k : Nat) : Event :=
  Event.progress (pyPercent k n) (statusMsg k n)

/-- Specification-side output: pages of the concatenation of all source
documents whose 1-based absolute position is not excluded, kept in order. -/
def keepFrom (excluded : Finset ℤ) : Nat → List Page → List Page
  | _cur, [] => []
  | cur, p :: ps =>
    (if (cur : ℤ) ∈ excluded then [] else [p]) ++
      keepFrom excluded (cur + 1) ps

/-- Specification-side merge output over the concatenated documents,
numbering absolute positions from 1. -/
def mergeSpecOutput (excluded : Finset ℤ) (docs : List (List Page)) :
    List Page :=
  keepFrom excluded 1 docs.flatten

/-- Modelled from the spec: `percent_complete = round(100 * k / n)`
(rounding, not truncation), the formula the specification ascribes to the
progress event after the `k`-th of `n` files.  Stated over `ℚ` with
Mathlib's `round`. -/
def specPercentRound (k n : Nat) : ℤ :=
  round ((100 * k : ℚ) / n)

/-- The `j` progress events emitted for the files that follow the first `i`
files of an `n`-file merge, in emission order. -/
def progressPrefix (n : Nat) : Nat → Nat → List Event
  | _i, 0 => []
  | i, j + 1 => progressEvt n (i + 1) :: progressPrefix n (i + 1) j

/-! ### Parser lemmas -/

/-- One step of the token loop, phrased through `tokenExpansion`. -/
theorem applyTokens_cons (t : List Char) (ts : List (List Char))
    (acc : Finset ℤ) :
    applyTokens (t :: ts) acc =
      match tokenExpansion t with
      | some s => applyTokens ts (acc ∪ s)
      | none => (acc, true) := by
  by_cases h : '-' ∈ t
  · cases hp : pyIntPair (pySplit '-' t) <;>
      simp [applyTokens, tokenExpansion, h, hp]
  · cases hp : pyInt t <;>
      simp [applyTokens, tokenExpansion, h, hp, Finset.insert_eq,
        Finset.union_comm]

/-- When the error dialog did not fire, the accumulated set is the prior
accumulator joined with the union of all token expansions. -/
theorem applyTokens_flag_false (ts : List (List Char)) :
    ∀ acc : Finset ℤ, (applyTokens ts acc).2 = false →
      (applyTokens ts acc).1 = acc ∪ specUnion ts := by
  induction ts with
  | nil => intro acc _; simp [applyTokens, specUnion]
  | cons t ts ih =>
    intro acc
    rw [applyTokens_cons]
    cases he : tokenExpansion t with
    | none => intro h; simp at h
    | some s =>
      intro h
      dsimp only at h ⊢
      rw [ih _ h]
      simp [specUnion, he, Finset.union_assoc]

/-- A token list whose first malformed token is `bad` makes the loop stop
with the dialog shown, keeping the expansions of the good prefix already
applied to the accumulator. -/
theorem applyTokens_first_bad (good : List (List Char)) (bad : List Char)
    (rest : List (List Char)) (hbad : tokenExpansion bad = none) :
    ∀ acc : Finset ℤ, (∀ t ∈ good, (tokenExpansion t).isSome) →
      applyTokens (good ++ bad :: rest) acc = (acc ∪ specUnion good, true) := by
  induction good with
  | nil =>
    intro acc _
    simp only [List.nil_append, applyTokens_cons, hbad, specUnion]
    simp
  | cons t good ih =>
    intro acc hgood
    have ht : (tokenExpansion t).isSome := hgood t (by simp)
    obtain ⟨s, hs⟩ := Option.isSome_iff_exists.mp ht
    rw [List.cons_append, applyTokens_cons, hs]
    dsimp only
    rw [ih _ (fun u hu => hgood u (by simp [hu]))]
    simp [specUnion, hs, Finset.union_assoc]

/-! ### Claim C1 -/

/-- Claim C1 as stated is false: on input `"2,a"` with previously stored
exclusion set `{7}`, parsing fails (the dialog fires) but the stored set has
been cleared and partially updated to `{2}`, not left at `{7}`. -/
theorem C1_counterexample :
    PdfMergerApp.apply_page_removal ⟨["a.pdf"], {7}⟩ ['2', ',', 'a']
        = (⟨["a.pdf"], {2}⟩, true)
      ∧ ({2} : Finset ℤ) ≠ {7} := by
  constructor
  · decide
  · decide

/-- Claim C1 amended: on any nonempty (after space removal) input whose
token list has a first malformed token, `apply_page_removal` reports the
error, but the stored exclusion set has been cleared and then updated with
the expansions of exactly the tokens preceding the malformed one — the
previously stored set is discarded, not preserved. -/
theorem C1_failure_clears_then_keeps_prefix (app : PdfMergerApp)
    (input : List Char) (good : List (List Char)) (bad : List Char)
    (rest : List (List Char))
    (hne : input.filter (fun c => c ≠ ' ') ≠ [])
    (hsplit : pySplit ',' (input.filter (fun c => c ≠ ' '))
      = good ++ bad :: rest)
    (hgood : ∀ t ∈ good, (tokenExpansion t).isSome)
    (hbad : tokenExpansion bad = none) :
    app.apply_page_removal input
      = ({ app with excluded_pages := specUnion good }, true) := by
  unfold PdfMergerApp.apply_page_removal
  simp only [if_neg hne, hsplit,
    applyTokens_first_bad good bad rest hbad ∅ hgood]
  simp

/-- Witness for C1: the amended statement at input `"2,a"` and prior set
`{7}`. -/
theorem C1_witness :
    PdfMergerApp.apply_page_removal ⟨["a.pdf"], {7}⟩ ['2', ',', 'a']
      = (⟨["a.pdf"], specUnion [['2']]⟩, true) :=
  C1_failure_clears_then_keeps_prefix ⟨["a.pdf"], {7}⟩ ['2', ',', 'a']
    [['2']] ['a'] [] (by decide) (by decide) (by decide) (by decide)

/-! ### Claim C4 -/

/-- Claim C4: whenever `apply_page_removal` succeeds (no error dialog), the
stored exclusion set is the union, over the comma-separated tokens of the
space-stripped input, of the inclusive range `[a, b]` for a range token
`a-b` (empty when `a > b`) and the singleton for a bare integer token. -/
theorem C4_success_result_is_union (app : PdfMergerApp) (input : List Char)
    (h : (app.apply_page_removal input).2 = false) :
    (app.apply_page_removal input).1.excluded_pages
      = specUnion (pySplit ',' (input.filter (fun c => c ≠ ' '))) := by
  unfold PdfMergerApp.apply_page_removal at h ⊢
  by_cases hne : input.filter (fun c => c ≠ ' ') = []
  · rw [hne]
    simp [pySplit, specUnion, tokenExpansion, pyInt, stripWS, pyDigits]
  · simp only [if_neg hne] at h ⊢
    rw [applyTokens_flag_false _ ∅ h]
    simp

/-- Witness for C4: `parse("2,5,8-10")` succeeds with `{2,5,8,9,10}`,
`parse("3-3")` with `{3}`, and `parse("5-2")` silently with `{}`. -/
theorem C4_witness :
    (PdfMergerApp.apply_page_removal ⟨[], ∅⟩
        ['2', ',', '5', ',', '8', '-', '1', '0']).2 = false
      ∧ (PdfMergerApp.apply_page_removal ⟨[], ∅⟩
          ['2', ',', '5', ',', '8', '-', '1', '0']).1.excluded_pages
        = specUnion (pySplit ','
            (['2', ',', '5', ',', '8', '-', '1', '0'].filter (fun c => c ≠ ' ')))
      ∧ (PdfMergerApp.apply_page_removal ⟨[], ∅⟩
          ['2', ',', '5', ',', '8', '-', '1', '0']).1.excluded_pages
        = ({2, 5, 8, 9, 10} : Finset ℤ)
      ∧ (PdfMergerApp.apply_page_removal ⟨[], ∅⟩
          ['3', '-', '3']).1.excluded_pages = ({3} : Finset ℤ)
      ∧ PdfMergerApp.apply_page_removal ⟨[], ∅⟩ ['5', '-', '2']
        = (⟨[], ∅⟩, false) :=
  ⟨by decide, C4_success_result_is_union ⟨[], ∅⟩ _ (by decide),
    by decide, by decide, by decide⟩

/-! ### Claim C5 -/

/-- Claim C5 as stated is false: a tab character is whitespace, yet the
input `"\t"` makes `apply_page_removal` fire the error dialog instead of
succeeding with the empty set, because the code removes only space
characters (`replace(" ", "")`) and `int("\t")` raises. -/
theorem C5_counterexample :
    (∀ c ∈ ['\t'], isPyWhitespace c = true)
      ∧ (PdfMergerApp.apply_page_removal ⟨[], {5}⟩ ['\t']).2 = true := by
  constructor
  · decide
  · decide

/-- Claim C5 amended: an input that is empty or consists only of space
characters (the only whitespace `replace(" ", "")` removes) succeeds
without an error and stores the empty exclusion set. -/
theorem C5_space_only_input_yields_empty (app : PdfMergerApp)
    (input : List Char) (h : ∀ c ∈ input, c = ' ') :
    app.apply_page_removal input = ({ app with excluded_pages := ∅ }, false) := by
  unfold PdfMergerApp.apply_page_removal
  have hfil : input.filter (fun c => c ≠ ' ') = [] :=
    List.filter_eq_nil_iff.mpr (fun a ha => by simp [h a ha])
  rw [hfil]
  simp

/-! ### Merge lemmas -/

/-- Unfolding one page of the inner loop. -/
theorem addPages_cons (excluded : Finset ℤ) (p : Page) (ps : List Page)
    (st : List Page × Nat) :
    addPages excluded (p :: ps) st
      = addPages excluded ps
          (if (st.2 : ℤ) ∈ excluded then st.1 else st.1 ++ [p], st.2 + 1) :=
  rfl

/-- The inner page loop appends exactly the pages whose absolute position
is not excluded and advances the counter by the page count. -/
theorem addPages_eq (excluded : Finset ℤ) (doc : List Page) :
    ∀ (acc : List Page) (cur : Nat),
      addPages excluded doc (acc, cur)
        = (acc ++ keepFrom excluded cur doc, cur + doc.length) := by
  induction doc with
  | nil => intro acc cur; simp [addPages, keepFrom]
  | cons p ps ih =>
    intro acc cur
    rw [addPages_cons]
    by_cases h : (cur : ℤ) ∈ excluded
    · simp only [h, if_pos]
      rw [ih]
      simp [keepFrom, h, Nat.add_assoc, Nat.add_comm, Nat.add_left_comm]
    · simp only [h, if_neg, not_false_iff]
      rw [ih]
      simp [keepFrom, h, List.append_assoc, Nat.add_assoc, Nat.add_comm,
        Nat.add_left_comm]

/-- Position-filtering distributes over concatenation of documents. -/
theorem keepFrom_append (excluded : Finset ℤ) (xs ys : List Page) :
    ∀ cur, keepFrom excluded cur (xs ++ ys)
      = keepFrom excluded cur xs ++ keepFrom excluded (cur + xs.length) ys := by
  induction xs with
  | nil => intro cur; simp [keepFrom]
  | cons p ps ih =>
    intro cur
    simp [keepFrom, ih (cur + 1), List.append_assoc, Nat.add_assoc,
      Nat.add_comm, Nat.add_left_comm]

/-- The recursive progress-event prefix as a `List.range` map. -/
theorem progressPrefix_eq_range (n : Nat) :
    ∀ j i, progressPrefix n i j
      = (List.range j).map (fun k => progressEvt n (i + 1 + k)) := by
  intro j
  induction j with
  | zero => intro i; simp [progressPrefix]
  | succ j ih =>
    intro i
    rw [progressPrefix, List.range_succ_eq_map]
    simp only [List.map_cons, List.map_map, ih (i + 1)]
    refine congrArg₂ _ (by simp) ?_
    refine List.map_congr_left (fun k _ => ?_)
    simp only [Function.comp_apply]
    congr 1
    omega

/-- When every source document reads successfully, the worker loop opens
every file in order, emits one progress event per file, finishes, and
accumulates exactly the non-excluded pages. -/
theorem runAux_success (read : String → Except String (List Page))
    (excluded : Finset ℤ) (n : Nat) (pairs : List (String × List Page))
    (h : ∀ p ∈ pairs, read p.1 = Except.ok p.2)
    (hn : pairs ≠ [] → n ≠ 0) :
    ∀ (i : Nat) (acc : List Page) (cur : Nat) (opened : List String)
      (events : List Event),
      runAux read excluded n (pairs.map Prod.fst) i (acc, cur) opened events
        = ⟨opened ++ pairs.map Prod.fst,
           events ++ progressPrefix n i pairs.length ++ [Event.finished],
           some (acc ++
             keepFrom excluded cur (pairs.map Prod.snd).flatten)⟩ := by
  induction pairs with
  | nil =>
    intro i acc cur opened events
    simp [runAux, keepFrom, progressPrefix]
  | cons pr rest ih =>
    intro i acc cur opened events
    have hn' : n ≠ 0 := hn (by simp)
    have hread : read pr.1 = Except.ok pr.2 := h pr (by simp)
    rw [List.map_cons, runAux, hread]
    dsimp only
    rw [if_neg hn', addPages_eq,
      ih (fun p hp => h p (by simp [hp])) (fun _ => hn')]
    simp [progressPrefix, keepFrom_append, List.append_assoc, progressEvt]

/-- When the sources up to the first unreadable one succeed, the loop stops
at the unreadable file: it emits one progress event per completed file and
one error event, opens nothing after the bad file, and writes no output. -/
theorem runAux_failure (read : String → Except String (List Page))
    (excluded : Finset ℤ) (n : Nat) (pairs : List (String × List Page))
    (bad : String) (msg : String) (post : List String)
    (h : ∀ p ∈ pairs, read p.1 = Except.ok p.2)
    (hbad : read bad = Except.error msg) (hn : n ≠ 0) :
    ∀ (i : Nat) (st : List Page × Nat) (opened : List String)
      (events : List Event),
      runAux read excluded n (pairs.map Prod.fst ++ bad :: post) i st opened
          events
        = ⟨opened ++ pairs.map Prod.fst ++ [bad],
           events ++ progressPrefix n i pairs.length ++ [Event.error msg],
           none⟩ := by
  induction pairs with
  | nil =>
    intro i st opened events
    rw [List.map_nil, List.nil_append, runAux, hbad]
    simp [progressPrefix]
  | cons pr rest ih =>
    intro i st opened events
    have hread : read pr.1 = Except.ok pr.2 := h pr (by simp)
    rw [List.map_cons, List.cons_append, runAux, hread]
    dsimp only
    rw [if_neg hn, ih (fun p hp => h p (by simp [hp]))]
    simp [progressPrefix, List.append_assoc, progressEvt]

/-- Whatever the sources do, the emitted trace is a progress-event prefix,
in file order, followed by exactly one final event; the final event is
`finished` or `error`, and `finished` occurs exactly when every file was
processed. -/
theorem runAux_shape (read : String → Except String (List Page))
    (excluded : Finset ℤ) (n : Nat) :
    ∀ (files : List String) (i : Nat) (st : List Page × Nat)
      (opened : List String) (events : List Event),
      ∃ j final,
        (runAux read excluded n files i st opened events).events
          = events ++ progressPrefix n i j ++ [final]
        ∧ j ≤ files.length
        ∧ (final = Event.finished ∨ ∃ msg, final = Event.error msg)
        ∧ (final = Event.finished → j = files.length) := by
  intro files
  induction files with
  | nil =>
    intro i st opened events
    exact ⟨0, Event.finished, by simp [runAux, progressPrefix],
      Nat.le_refl 0, Or.inl rfl, fun _ => rfl⟩
  | cons f rest ih =>
    intro i st opened events
    cases hread : read f with
    | error msg =>
      refine ⟨0, Event.error msg, ?_, Nat.zero_le _, Or.inr ⟨msg, rfl⟩, ?_⟩
      · rw [runAux, hread]; simp [progressPrefix]
      · intro hfin; exact absurd hfin (by simp)
    | ok pages =>
      by_cases hn : n = 0
      · refine ⟨0, Event.error "division by zero", ?_, Nat.zero_le _,
          Or.inr ⟨_, rfl⟩, ?_⟩
        · rw [runAux, hread]; simp [hn, progressPrefix]
        · intro hfin; exact absurd hfin (by simp)
      · obtain ⟨j, final, hev, hle, hfin, himp⟩ :=
          ih (i + 1) (addPages excluded pages st) (opened ++ [f])
            (events ++
              [Event.progress (pyPercent (i + 1) n) (statusMsg (i + 1) n)])
        refine ⟨j + 1, final, ?_, by simpa using Nat.succ_le_succ hle, hfin,
          fun hf => by simp [himp hf]⟩
        rw [runAux, hread]
        dsimp only
        rw [if_neg hn, hev]
        simp [progressPrefix, progressEvt, List.append_assoc]

/-- The worker loop only consults the reader on the files it iterates over:
two readers that agree on every listed file produce identical results. -/
theorem runAux_congr (read1 read2 : String → Except String (List Page))
    (excluded : Finset ℤ) (n : Nat) :
    ∀ (files : List String) (i : Nat) (st : List Page × Nat)
      (opened : List String) (events : List Event),
      (∀ f ∈ files, read1 f = read2 f) →
      runAux read1 excluded n files i st opened events
        = runAux read2 excluded n files i st opened events := by
  intro files
  induction files with
  | nil => intro i st opened events _; rfl
  | cons f rest ih =>
    intro i st opened events h
    rw [runAux, runAux, h f (by simp)]
    cases read2 f with
    | error msg => rfl
    | ok pages =>
      dsimp only
      by_cases hn : n = 0
      · simp [hn]
      · rw [if_neg hn, if_neg hn, ih _ _ _ _ (fun p hp => h p (by simp [hp]))]

/-! ### Claim C2 -/

/-- Claim C2: with every source readable, the merge output is exactly the
pages of the concatenated documents whose 1-based absolute position is not
in the exclusion set, in order (the counter advances for every page,
included or not). -/
theorem C2_output_is_position_filter
    (read : String → Except String (List Page))
    (pairs : List (String × List Page)) (excluded : Finset ℤ)
    (h : ∀ p ∈ pairs, read p.1 = Except.ok p.2) :
    (MergeWorker.run read (pairs.map Prod.fst) excluded).output
      = some (mergeSpecOutput excluded (pairs.map Prod.snd)) := by
  unfold MergeWorker.run mergeSpecOutput
  rw [runAux_success read excluded _ pairs h
    (fun hne => by
      simp only [List.length_map, ne_eq, List.length_eq_zero]
      exact hne)]
  simp

/-- Witness for C2: documents of 2, 3 and 1 pages (pages labelled by their
absolute positions 1..6) with exclusion set `{1, 4, 6}` merge to the
3-page output `[2, 3, 5]`, in that order. -/
theorem C2_witness :
    (MergeWorker.run
        (fun p => if p = "a" then Except.ok [(1 : ℤ), 2]
          else if p = "b" then Except.ok [3, 4, 5] else Except.ok [6])
        ["a", "b", "c"] {1, 4, 6}).output
      = some [2, 3, 5] :=
  (C2_output_is_position_filter
      (fun p => if p = "a" then Except.ok [1, 2]
        else if p = "b" then Except.ok [3, 4, 5] else Except.ok [6])
      [("a", [1, 2]), ("b", [3, 4, 5]), ("c", [6])] {1, 4, 6}
      (by intro p hp; fin_cases hp; all_goals rfl)).trans (by decide)

/-! ### Claim C5 witness -/

/-- Witness for C5: the amended statement at `""` and `"   "`. -/
theorem C5_witness :
    PdfMergerApp.apply_page_removal ⟨["x.pdf"], {9}⟩ [] = (⟨["x.pdf"], ∅⟩, false)
      ∧ PdfMergerApp.apply_page_removal ⟨["x.pdf"], {9}⟩ [' ', ' ', ' ']
        = (⟨["x.pdf"], ∅⟩, false) :=
  ⟨C5_space_only_input_yields_empty ⟨["x.pdf"], {9}⟩ [] (by decide),
    C5_space_only_input_yields_empty ⟨["x.pdf"], {9}⟩ [' ', ' ', ' ']
      (by decide)⟩

/-! ### Claim C3 -/

/-- Claim C3 as stated is false: in a 3-file merge, the event emitted after
the second file carries percent `66` — `int(((1 + 1) / 3) * 100)` truncates
— while the claimed `round(100 * 2 / 3)` is `67`. -/
theorem C3_counterexample :
    (MergeWorker.run (fun _ => Except.ok [(0 : ℤ)]) ["a", "b", "c"]
        ∅).events[1]?
      = some (Event.progress 66 (statusMsg 2 3))
    ∧ specPercentRound 2 3 = 67
    ∧ (66 : ℤ) ≠ 67 := by
  refine ⟨by decide, ?_, by decide⟩
  rw [specPercentRound]
  norm_num [round_eq]

/-- Claim C3 amended: the progress event emitted after finishing the `k`-th
source document of `n` carries percent `int(((k) / n) * 100)` computed in
IEEE-754 binary64 — truncation of the correctly rounded float product
(`pyPercent k n`), which is neither `round(100 * k / n)` (66 vs 67 at
`k = 2, n = 3`) nor in general the exact `⌊100 * k / n⌋` (57 vs 58 at
`k = 29, n = 50`) — together with the status naming the 1-based index `k`
and the total `n`. -/
theorem C3_percent_is_truncation
    (read : String → Except String (List Page))
    (pairs : List (String × List Page)) (excluded : Finset ℤ) (k : Nat)
    (h : ∀ p ∈ pairs, read p.1 = Except.ok p.2) (hk : k < pairs.length) :
    (MergeWorker.run read (pairs.map Prod.fst) excluded).events[k]?
      = some (Event.progress (pyPercent (k + 1) pairs.length)
          (statusMsg (k + 1) pairs.length)) := by
  unfold MergeWorker.run
  rw [runAux_success read excluded _ pairs h
    (fun hne => by
      simp only [List.length_map, ne_eq, List.length_eq_zero]
      exact hne)]
  dsimp only
  rw [List.nil_append, List.length_map, progressPrefix_eq_range]
  rw [List.getElem?_append_left (by simp [hk])]
  rw [List.getElem?_map, List.getElem?_range hk]
  have harith : 0 + 1 + k = k + 1 := by omega
  rw [Option.map_some', harith]
  rfl

/-- Witness for C3: in a 50-file merge the event after the 29th file
carries percent `57` — the binary64 value of `int((29 / 50) * 100)` —
where exact rational truncation would give `⌊2900 / 50⌋ = 58`. -/
theorem C3_witness :
    (MergeWorker.run (fun _ => Except.ok [(0 : ℤ)])
        ((List.replicate 50 ("f", [(0 : ℤ)])).map Prod.fst) ∅).events[28]?
      = some (Event.progress 57 (statusMsg 29 50))
    ∧ pyPercent 29 50 = 57
    ∧ (29 * 100) / 50 = 58
    ∧ (57 : ℕ) ≠ 58 := by
  refine ⟨?_, by decide, by decide, by decide⟩
  have h := C3_percent_is_truncation (fun _ => Except.ok [(0 : ℤ)])
    (List.replicate 50 ("f", [(0 : ℤ)])) ∅ 28
    (fun p hp => by rw [List.eq_of_mem_replicate hp]) (by decide)
  exact h.trans (by decide)

/-! ### Claim C6 -/

/-- Claim C6: when a source fails to open, the merge aborts at that file
with the reader's error: every earlier (readable) file contributes its one
progress event, the unreadable file is the last one opened — no later
source is processed — the single final event is the error, and no output
is written (`none`: the destination file is never even created, since
writing happens only after the loop). -/
theorem C6_unreadable_source_aborts
    (read : String → Except String (List Page))
    (pairs : List (String × List Page)) (bad msg : String)
    (post : List String) (excluded : Finset ℤ)
    (h : ∀ p ∈ pairs, read p.1 = Except.ok p.2)
    (hbad : read bad = Except.error msg) :
    MergeWorker.run read (pairs.map Prod.fst ++ bad :: post) excluded
      = ⟨pairs.map Prod.fst ++ [bad],
         progressPrefix (pairs.length + (post.length + 1)) 0 pairs.length
           ++ [Event.error msg],
         none⟩ := by
  unfold MergeWorker.run
  rw [runAux_failure read excluded _ pairs bad msg post h hbad (by simp)]
  simp

/-- Witness for C6: three files with the second unreadable — only the
first two files are opened, one progress event then the error, no output. -/
theorem C6_witness :
    MergeWorker.run
        (fun p => if p = "a" then Except.ok [(1 : ℤ)] else Except.error "bad pdf")
        ["a", "b", "c"] ∅
      = ⟨["a", "b"],
         [Event.progress 33 (statusMsg 1 3), Event.error "bad pdf"],
         none⟩ := by
  have h := C6_unreadable_source_aborts
    (fun p => if p = "a" then Except.ok [(1 : ℤ)] else Except.error "bad pdf")
    [("a", [1])] "b" "bad pdf" ["c"] ∅
    (by intro p hp; fin_cases hp; all_goals rfl) (by rfl)
  exact h.trans (by decide)

/-! ### Claim C7 -/

/-- Claim C7: every merge emits one progress event per processed source
file, carried in strictly increasing file-index order (they form the map of
`k ↦ progressEvt n (k + 1)` over an initial segment), all of them before
the single final event, which is `finished` or `error`; `finished` occurs
exactly after all files are processed, so a successful merge has exactly
one progress event per source file.  Concretely, a 4-file merge emits the
percentages 25, 50, 75, 100 in order, then `finished`. -/
theorem C7_trace_shape :
    (∀ (Pg : Type) (read : String → Except String (List Pg))
        (files : List String) (excluded : Finset ℤ),
      ∃ j final,
        (MergeWorker.run read files excluded).events
          = (List.range j).map (fun k => progressEvt files.length (k + 1))
            ++ [final]
        ∧ j ≤ files.length
        ∧ (final = Event.finished ∨ ∃ msg, final = Event.error msg)
        ∧ (final = Event.finished → j = files.length))
    ∧ (MergeWorker.run (fun _ => Except.ok [(0 : ℤ)])
        ["a", "b", "c", "d"] ∅).events
      = [Event.progress 25 (statusMsg 1 4), Event.progress 50 (statusMsg 2 4),
         Event.progress 75 (statusMsg 3 4),
         Event.progress 100 (statusMsg 4 4), Event.finished] := by
  constructor
  · intro Pg read files excluded
    obtain ⟨j, final, hev, hle, hfin, himp⟩ :=
      runAux_shape read excluded files.length files 0 ([], 1) [] []
    refine ⟨j, final, ?_, hle, hfin, himp⟩
    have hmap : (List.range j).map
          (fun k => progressEvt files.length (0 + 1 + k))
        = (List.range j).map (fun k => progressEvt files.length (k + 1)) :=
      List.map_congr_left (fun k _ => by congr 1; omega)
    unfold MergeWorker.run
    rw [hev, progressPrefix_eq_range, hmap]
    simp
  · decide

/-! ### Claim C8 -/

/-- Claim C8 as stated is false: launch a merge while the exclusion set is
`{1}` over files `a` (one page) and `b` (one page); re-running the parser
with `"2"` afterwards mutates the very set object the worker holds, so the
running merge consumes `{2}` and outputs page 1, whereas with the
launch-time set `{1}` it would output page 2. -/
theorem C8_counterexample :
    ((PdfMergerApp.merge_pdfs ⟨["a", "b"], {1}⟩ "out.pdf").runIn
        (fun p => if p = "a" then Except.ok [(1 : ℤ)] else Except.ok [2])
        (PdfMergerApp.apply_page_removal ⟨["a", "b"], {1}⟩ ['2']).1).output
      = some [1]
    ∧ (MergeWorker.run
        (fun p => if p = "a" then Except.ok [(1 : ℤ)] else Except.ok [2])
        (PdfMergerApp.merge_pdfs ⟨["a", "b"], {1}⟩ "out.pdf").files
        ({1} : Finset ℤ)).output
      = some [2]
    ∧ (PdfMergerApp.apply_page_removal ⟨["a", "b"], {1}⟩ ['2']).1.excluded_pages
      ≠ ({1} : Finset ℤ) := by
  refine ⟨by decide, by decide, by decide⟩

/-- Claim C8 amended: the launched job snapshots the file list — `get_files`
builds a fresh list, so the worker's `files` is fixed at launch — but the
exclusion set is captured by object reference, so the running merge
consumes whatever `excluded_pages` holds in the application state current
when `run` executes (in particular the set produced by a post-launch parser
run), not the launch-time contents. -/
theorem C8_files_snapshot_exclusions_by_reference
    (read : String → Except String (List Page))
    (appLaunch appRun : PdfMergerApp) (output : String) :
    (appLaunch.merge_pdfs output).files = appLaunch.get_files
    ∧ (appLaunch.merge_pdfs output).runIn read appRun
      = MergeWorker.run read appLaunch.get_files appRun.excluded_pages :=
  ⟨rfl, rfl⟩

/-! ### Claim C9 -/

/-- Claim C9: the merge is a deterministic function of the file list, the
exclusion set, and the behaviour of the PDF reader on the listed files —
two runs whose readers agree on every listed file produce identical signal
traces and identical output page sequences (so a deterministic underlying
reader/writer yields byte-for-byte identical output across re-runs). -/
theorem C9_run_deterministic
    (read1 read2 : String → Except String (List Page))
    (files : List String) (excluded : Finset ℤ)
    (h : ∀ f ∈ files, read1 f = read2 f) :
    MergeWorker.run read1 files excluded
      = MergeWorker.run read2 files excluded := by
  unfold MergeWorker.run
  exact runAux_congr read1 read2 excluded files.length files 0 ([], 1) [] [] h

/-- Witness for C9: two syntactically different readers agreeing on the
listed files give identical runs. -/
theorem C9_witness :
    MergeWorker.run (fun _ => Except.ok [(7 : ℤ)]) ["a", "b"] {1}
      = MergeWorker.run
          (fun p => if p = "c" then Except.error "unreadable"
            else Except.ok [7])
          ["a", "b"] {1} :=
  C9_run_deterministic _ _ ["a", "b"] {1}
    (by intro f hf; fin_cases hf; all_goals rfl)

/-! ### Claim C10 -/

/-- Claim C10: merging the empty file list succeeds: no file is opened, no
progress event is emitted (so the `ZeroDivisionError` branch guarding
`(i + 1) / total_files` is never reached), a zero-page output document is
written, and the single emitted event is `finished`. -/
theorem C10_empty_file_list
    (read : String → Except String (List Page)) (excluded : Finset ℤ) :
    MergeWorker.run read [] excluded = ⟨[], [Event.finished], some []⟩ :=
  rfl

end Project1
